import Mathlib

/-!
Verification development for the HackData21 food-inventory backend.

The repository consists of a MongoDB schema with validators and aggregation
pipelines (`sql/core_schema.mongodb.js`), documentation of the transactional
ledger functions of `lib/transactions.js` (`README.md`), and a serverless chat
handler (`chatbot/api/index.js`).  The chat handler is embedded directly from
its JavaScript source.  The ledger and query functions live in
`lib/transactions.js`, which is documented but not present here, so they are
modelled from the specification, against the data model of the schema file.
-/

namespace HackData

/-! ### JavaScript string operations

`chatbot/api/index.js` uses `String.prototype.split` and
`String.prototype.includes`.  They are embedded over `List Char` with the
same semantics: `split` cuts the string at every occurrence of a non-empty
separator (scanning left to right), `includes` is substring containment. -/

/-- Prefix test: `isPrefixL pre s` is true when `pre` is a prefix of `s`. -/
def isPrefixL : List Char → List Char → Bool
  | [], _ => true
  | _ :: _, [] => false
  | a :: as, b :: bs => a == b && isPrefixL as bs

/-- Fuelled worker for `jsSplit`.  The fuel is the length of the string, which
is enough since every step consumes at least one character. -/
def splitGo (c0 : Char) (cs : List Char) : Nat → List Char → List (List Char)
  | _, [] => [[]]
  | 0, s => [s]
  | fuel + 1, c :: rest =>
    if isPrefixL (c0 :: cs) (c :: rest) then
      [] :: splitGo c0 cs fuel (rest.drop cs.length)
    else
      match splitGo c0 cs fuel rest with
      | [] => [[c]]
      | h :: t => (c :: h) :: t

/-- JavaScript `s.split(sep)` for a non-empty separator (an empty separator
splits into characters in JavaScript; it is never used by the handler, and we
return the string whole in that case). -/
def jsSplit (sep s : String) : List String :=
  match sep.data with
  | [] => [s]
  | c :: cs => (splitGo c cs s.data.length s.data).map List.asString

/-- JavaScript `s.includes(sub)`: substring containment. -/
def jsIncludes (s sub : String) : Bool :=
  decide (sub.data <:+: s.data)

/-- Pathname extraction `req.url.split("?")[0]`: the URL before the first `?`. -/
def jsPathname (url : String) : String :=
  (url.data.takeWhile (fun c => c ≠ '?')).asString

/-! ### Chat handler (`chatbot/api/index.js`)

The handler closes over a module-level `const users = {}` and serves a few
routes.  The users object is embedded as an association list of own
properties (insertion at the end, first match wins on lookup) together with
an explicit prototype-chain fallback: a property read on a plain object that
finds no own key yields the inherited `Object.prototype` member for names
such as `constructor` or `toString`, and those members are truthy.  The JSON
response bodies are embedded as an inductive, one constructor per
`res.json(...)` site. -/

/-- A stored user document; both creation sites write `{ id: userId }`. -/
structure ChatUser where
  id : String
deriving DecidableEq, Repr

/-- The module-level `users` object: keys to stored documents. -/
abbrev UsersMap := List (String × ChatUser)

/-- Lookup `users[k]`: first binding of key `k`, if any. -/
def lookupUser : UsersMap → String → Option ChatUser
  | [], _ => none
  | (k', u) :: rest, k => if k' == k then some u else lookupUser rest k

/-- Property names of `Object.prototype` in JavaScript.  The module-level
`users = {}` is a plain object, so a property read `users[k]` that finds no
own key falls back to the prototype chain and yields the inherited member for
these names; every one of them is truthy (eleven are functions, and the
accessor `__proto__` yields `Object.prototype` itself, an object). -/
def objectProtoProps : List String :=
  ["constructor", "hasOwnProperty", "isPrototypeOf", "propertyIsEnumerable",
   "toLocaleString", "toString", "valueOf", "__defineGetter__",
   "__defineSetter__", "__lookupGetter__", "__lookupSetter__", "__proto__"]

/-- Result of the JavaScript property read `users[k]`: an own entry, an
inherited `Object.prototype` member (carrying its name), or `undefined`. -/
inductive JsPropValue
  | own (u : ChatUser)
  | inherited (name : String)
  | undefinedVal
deriving DecidableEq, Repr

/-- Read `users[k]`: the own key first, else the prototype chain, else
`undefined`. -/
def jsGetProp (m : UsersMap) (k : String) : JsPropValue :=
  match lookupUser m k with
  | some u => .own u
  | none => if k ∈ objectProtoProps then .inherited k else .undefinedVal

/-- Truthiness of a property read: own documents and inherited
`Object.prototype` members are objects or functions, hence truthy; only
`undefined` is falsy here. -/
def jsPropTruthy : JsPropValue → Bool
  | .own _ => true
  | .inherited _ => true
  | .undefinedVal => false

/-- Insertion `if (!users[k]) users[k] = { id: k }`: the guard is the
truthiness of the full property read, so a key shadowed by an inherited
`Object.prototype` member is never inserted.  (The `__proto__` setter is
therefore unreachable: its guard is always truthy.) -/
def ensureUser (m : UsersMap) (k : String) : UsersMap :=
  if jsPropTruthy (jsGetProp m k) then m else m ++ [(k, ⟨k⟩)]

/-- The parts of the Node request the handler reads: method, URL, and the
`userId`/`message` fields of the JSON body (absent fields are `none`). -/
structure ChatRequest where
  method : String
  url : String
  bodyUserId : Option String := none
  bodyMessage : Option String := none

/-- One constructor per `res.json(...)`/`res.end()` site of the handler. -/
inductive ChatBody
  | empty
  | statusRunning
  | okTrue
  | errorMissing
  | chatSuccess (userId : String)
  | userDoc (v : JsPropValue)
  | inventoryEmpty
  | analyticsScore
  | okGeneric
deriving DecidableEq, Repr

/-- Status code plus body of a response. -/
structure ChatResponse where
  status : Nat
  body : ChatBody
deriving DecidableEq, Repr

/-- A JSON body field is falsy when it is absent or the empty string. -/
def jsFalsyStr : Option String → Bool
  | none => true
  | some s => s == ""

/-- Segment extraction `pathname.split("/api/user/")[1]` of the user route. -/
def userSeg (pathname : String) : String :=
  (jsSplit "/api/user/" pathname).getD 1 ""

/-- The handler of `chatbot/api/index.js`, branch for branch (the source binds
`pathname = req.url.split("?")[0]` once; it is inlined as `jsPathname req.url`
here): returns the response and the state of the module-level `users` map
after the call. -/
def chatHandler (users : UsersMap) (req : ChatRequest) : ChatResponse × UsersMap :=
  if req.method == "OPTIONS" then (⟨200, .empty⟩, users)
  else if jsPathname req.url == "/" || jsPathname req.url == "" then
    (⟨200, .statusRunning⟩, users)
  else if jsPathname req.url == "/health" then (⟨200, .okTrue⟩, users)
  else if jsPathname req.url == "/api/chat" && req.method == "POST" then
    if jsFalsyStr req.bodyUserId || jsFalsyStr req.bodyMessage then
      (⟨400, .errorMissing⟩, users)
    else
      (⟨200, .chatSuccess (req.bodyUserId.getD "")⟩,
       ensureUser users (req.bodyUserId.getD ""))
  else if jsIncludes (jsPathname req.url) "/api/user/"
      && !jsIncludes (jsPathname req.url) "/inventory"
      && !jsIncludes (jsPathname req.url) "/analytics" && (req.method == "GET") then
    (⟨200, .userDoc (jsGetProp (ensureUser users (userSeg (jsPathname req.url)))
        (userSeg (jsPathname req.url)))⟩,
     ensureUser users (userSeg (jsPathname req.url)))
  else if jsIncludes (jsPathname req.url) "/inventory" then
    (⟨200, .inventoryEmpty⟩, users)
  else if jsIncludes (jsPathname req.url) "/analytics" then
    (⟨200, .analyticsScore⟩, users)
  else (⟨200, .okGeneric⟩, users)

/-- Reachability invariant of the `users` map: every stored document is
`{ id: key }` (both write sites store exactly that). -/
def UsersWellFormed (m : UsersMap) : Prop :=
  ∀ p ∈ m, (p.2).id = p.1

/-! ### Data model (`sql/core_schema.mongodb.js`)

Documents of the `food_items`, `inventory` and `consumption_logs` collections,
with the fields of the schema validators.  Identifiers are `Nat`, timestamps
are milliseconds since the epoch (`Nat`), quantities are `ℚ` (the schema uses
decimal/float quantities; the spec only relies on exact arithmetic and
ordering, which `ℚ` provides). -/

/-- The `actionType` enum of the `consumption_logs` validator. -/
inductive ActionType
  | PURCHASED
  | CONSUMED
  | WASTED
  | DONATED
deriving DecidableEq, Repr

/-- A `food_items` document (reference catalog). -/
structure FoodItem where
  id : Nat
  name : String
  category : String := ""
deriving DecidableEq, Repr

/-- An `inventory` document. -/
structure InventoryRecord where
  id : Nat
  userId : Nat
  foodItemId : Option Nat := none
  customName : String
  quantity : ℚ
  unit : String := ""
  purchaseDate : Option Nat := none
  expirationDate : Option Nat := none
deriving DecidableEq, Repr

/-- A `consumption_logs` document. -/
structure ConsumptionLogEntry where
  id : Nat
  userId : Nat
  foodName : String
  actionType : ActionType
  quantity : ℚ
  reasonForWaste : Option String := none
  logDate : Nat
deriving DecidableEq, Repr

/-- The datastore state: the three collections the ledger touches, plus a
fresh-id counter standing for ObjectId generation. -/
structure DB where
  foodItems : List FoodItem := []
  inventory : List InventoryRecord := []
  logs : List ConsumptionLogEntry := []
  nextId : Nat := 0
deriving DecidableEq, Repr

/-- From the `inventory` validator of `sql/core_schema.mongodb.js`:
`quantity: { bsonType: "decimal", minimum: 0 }`. -/
def inventoryDocValid (r : InventoryRecord) : Bool :=
  decide (0 ≤ r.quantity)

/-- Every inventory document satisfies the validator's quantity rule. -/
def QuantitiesNonneg (db : DB) : Prop :=
  ∀ r ∈ db.inventory, inventoryDocValid r = true

/-! ### Inventory Ledger

`lib/transactions.js` is documented in `README.md` but not part of the
sources here, so the three ledger operations are modelled from the spec. -/

/-- Error taxonomy of spec §7.  `InsufficientQuantity` carries the requested
and the available quantity. -/
inductive LedgerError
  | InvalidArgument
  | NotFound
  | Forbidden
  | InsufficientQuantity (requested available : ℚ)
  | Timeout
  | DatastoreUnavailable
deriving DecidableEq, Repr

/-- Lookup `findById("inventory", invId)`: first document with the given id. -/
def findRecord (db : DB) (invId : Nat) : Option InventoryRecord :=
  db.inventory.find? (fun r => r.id == invId)

/-- Lookup `findFoodItemById`: first catalog item with the given id. -/
def findFoodItem (db : DB) (fid : Nat) : Option FoodItem :=
  db.foodItems.find? (fun f => f.id == fid)

/-- Write back the updated document under its id. -/
def replaceById (l : List InventoryRecord) (invId : Nat)
    (r' : InventoryRecord) : List InventoryRecord :=
  l.map (fun r => if r.id == invId then r' else r)

/-- Modelled from the spec: the shared transactional core of `consume` and
`waste` (§4.1: "Identical contract to consume except the log kind"), with the
spec's check order — `amount > 0` fails fast, then existence (`NotFound`),
then ownership (`Forbidden`), then `InsufficientQuantity` carrying requested
and available; on success the record's quantity is decremented by `amount`
and one log entry of the given kind is appended, its name snapshot taken
from the record. -/
def decrementAndLog (db : DB) (invId uid : Nat) (amount : ℚ)
    (kind : ActionType) (reason : Option String) (now : Nat) :
    Except LedgerError (DB × InventoryRecord × ConsumptionLogEntry) :=
  if amount ≤ 0 then .error .InvalidArgument
  else
    match findRecord db invId with
    | none => .error .NotFound
    | some r =>
      if r.userId ≠ uid then .error .Forbidden
      else if r.quantity < amount then
        .error (.InsufficientQuantity amount r.quantity)
      else
        let r' := { r with quantity := r.quantity - amount }
        let log : ConsumptionLogEntry :=
          { id := db.nextId, userId := uid, foodName := r.customName,
            actionType := kind, quantity := amount, reasonForWaste := reason,
            logDate := now }
        .ok ({ db with
                inventory := replaceById db.inventory invId r'
                logs := db.logs ++ [log]
                nextId := db.nextId + 1 }, r', log)

/-- Modelled from the spec: `consume(inventoryId, userId, amount)` of §4.1
(`consumeItem` of `lib/transactions.js`). -/
def consumeItem (db : DB) (invId uid : Nat) (amount : ℚ) (now : Nat) :
    Except LedgerError (DB × InventoryRecord × ConsumptionLogEntry) :=
  decrementAndLog db invId uid amount .CONSUMED none now

/-- Modelled from the spec: `waste(inventoryId, userId, amount, reason)` of
§4.1 (`wasteItem` of `lib/transactions.js`): the reason is required and
non-empty, otherwise `InvalidArgument`; the rest is the consume contract with
log kind `WASTED` and the reason recorded. -/
def wasteItem (db : DB) (invId uid : Nat) (amount : ℚ)
    (reason : Option String) (now : Nat) :
    Except LedgerError (DB × InventoryRecord × ConsumptionLogEntry) :=
  match reason with
  | none => .error .InvalidArgument
  | some s =>
    if s = "" then .error .InvalidArgument
    else decrementAndLog db invId uid amount .WASTED (some s) now

/-- The input document of `purchase` (§4.1): display name, quantity, unit,
optional catalog reference and timestamps. -/
structure ItemData where
  customName : String
  quantity : ℚ
  unit : String := ""
  foodItemId : Option Nat := none
  purchaseDate : Option Nat := none
  expirationDate : Option Nat := none
deriving DecidableEq, Repr

/-- Modelled from the spec: `purchase(userId, itemData)` of §4.1
(`purchaseItem` of `lib/transactions.js`): `InvalidArgument` on non-positive
quantity, `NotFound` when a catalog reference is supplied but absent; on
success a brand-new record (a fresh lot, never merged) is created together
with one `PURCHASED` log entry of the same quantity. -/
def purchaseItem (db : DB) (uid : Nat) (d : ItemData) (now : Nat) :
    Except LedgerError (DB × InventoryRecord × ConsumptionLogEntry) :=
  if d.quantity ≤ 0 then .error .InvalidArgument
  else if (match d.foodItemId with
           | none => false
           | some fid => (findFoodItem db fid).isNone) then .error .NotFound
  else
    let newRec : InventoryRecord :=
      { id := db.nextId, userId := uid, foodItemId := d.foodItemId,
        customName := d.customName, quantity := d.quantity, unit := d.unit,
        purchaseDate := d.purchaseDate, expirationDate := d.expirationDate }
    let log : ConsumptionLogEntry :=
      { id := db.nextId + 1, userId := uid, foodName := d.customName,
        actionType := .PURCHASED, quantity := d.quantity,
        reasonForWaste := none, logDate := now }
    .ok ({ db with
            inventory := db.inventory ++ [newRec]
            logs := db.logs ++ [log]
            nextId := db.nextId + 2 }, newRec, log)

/-- A supplied catalog reference must resolve (`purchase` precondition). -/
def ValidFoodRef (db : DB) : Option Nat → Prop
  | none => True
  | some fid => (findFoodItem db fid).isSome = true

/-- From `README.md` ("5-second timeout on all transactions"): the fixed
transaction timeout bound. -/
def txTimeoutMs : Nat := 5000

/-- One ledger invocation with its arguments. -/
inductive LedgerCall
  | consume (invId uid : Nat) (amount : ℚ) (now : Nat)
  | waste (invId uid : Nat) (amount : ℚ) (reason : Option String) (now : Nat)
  | purchase (uid : Nat) (d : ItemData) (now : Nat)

/-- Dispatch a ledger call against the datastore. -/
def applyCall (db : DB) :
    LedgerCall → Except LedgerError (DB × InventoryRecord × ConsumptionLogEntry)
  | .consume i u a n => consumeItem db i u a n
  | .waste i u a r n => wasteItem db i u a r n
  | .purchase u d n => purchaseItem db u d n

/-- Modelled from the spec: `runTransaction` of the Datastore Adapter (§6),
which "aborts all writes on error or timeout".  `elapsedMs` is the time the
transaction took; `secondWriteFails` injects a datastore failure between the
two writes, in which case the first write is rolled back and the transport
error surfaces unchanged. -/
def runTx (db : DB) (c : LedgerCall) (elapsedMs : Nat) (secondWriteFails : Bool) :
    Except LedgerError (DB × InventoryRecord × ConsumptionLogEntry) :=
  if txTimeoutMs < elapsedMs then .error .Timeout
  else if secondWriteFails then .error .DatastoreUnavailable
  else applyCall db c

/-- The datastore state a caller observes after a ledger call: the new state
on commit, the unchanged state on any error (aborted transaction). -/
def nextState (db : DB)
    (r : Except LedgerError (DB × InventoryRecord × ConsumptionLogEntry)) : DB :=
  match r with
  | .ok (db', _, _) => db'
  | .error _ => db

/-! ### Query Service

Read-only derived views (§4.2), modelled from the spec; the constants
(milliseconds per day, inclusive window, ascending sort) agree with the
`expiringInventoryPipeline` of `sql/core_schema.mongodb.js`. -/

/-- Milliseconds per day, from `expiringInventoryPipeline`. -/
def msPerDay : Nat := 86400000

/-- The expiration window test: an expiration timestamp exists and lies in
`[now, now + withinDays]`, both bounds inclusive; documents without an
expiration timestamp never pass. -/
def inExpiryWindow (now withinDays : Nat) (r : InventoryRecord) : Bool :=
  match r.expirationDate with
  | none => false
  | some e => decide (now ≤ e) && decide (e ≤ now + withinDays * msPerDay)

/-- A row of the expiring-items view: the record enriched with the linked
catalog item's denormalized name and category when present. -/
structure ExpiringItem where
  id : Nat
  userId : Nat
  itemName : String
  foodItemName : Option String := none
  foodItemCategory : Option String := none
  quantity : ℚ
  unit : String := ""
  expirationDate : Nat
deriving DecidableEq, Repr

/-- Enrich an inventory record with its linked catalog item, if any. -/
def enrich (db : DB) (r : InventoryRecord) : ExpiringItem :=
  { id := r.id
    userId := r.userId
    itemName := r.customName
    foodItemName := (r.foodItemId.bind (findFoodItem db)).map (fun f => f.name)
    foodItemCategory := (r.foodItemId.bind (findFoodItem db)).map (fun f => f.category)
    quantity := r.quantity
    unit := r.unit
    expirationDate := r.expirationDate.getD 0 }

/-- Output order of the expiring view: ascending expiration timestamp,
ties broken by record identity. -/
def expiryOrder (a b : ExpiringItem) : Prop :=
  a.expirationDate < b.expirationDate ∨
    (a.expirationDate = b.expirationDate ∧ a.id ≤ b.id)

instance : DecidableRel expiryOrder := fun a b => by
  unfold expiryOrder; infer_instance

instance : IsTotal ExpiringItem expiryOrder :=
  ⟨by intro a b; unfold expiryOrder; omega⟩

instance : IsTrans ExpiringItem expiryOrder :=
  ⟨by intro a b c; unfold expiryOrder; omega⟩

/-- Modelled from the spec: `expiringSoon(userId, withinDays)` of §4.2
(`getExpiringItems` of `lib/transactions.js`): the user's own records whose
expiration timestamp falls within `[now, now + withinDays]` inclusive,
enriched, ordered by ascending expiration with a stable tie-break by record
identity. -/
def getExpiringItems (db : DB) (uid withinDays now : Nat) : List ExpiringItem :=
  List.insertionSort expiryOrder
    ((db.inventory.filter
        (fun r => r.userId == uid && inExpiryWindow now withinDays r)).map
      (enrich db))

/-- The report of `consumptionStats`: per-kind entry counts, summed consumed
and wasted quantities, and the total entry count. -/
structure ConsumptionStats where
  total : Nat
  consumed : Nat
  wasted : Nat
  purchased : Nat
  donated : Nat
  totalQuantityConsumed : ℚ
  totalQuantityWasted : ℚ
deriving DecidableEq, Repr

/-- A log entry matches the query: owned by the user, timestamp within the
inclusive date range. -/
def logInRange (uid s e : Nat) (l : ConsumptionLogEntry) : Bool :=
  l.userId == uid && (decide (s ≤ l.logDate) && decide (l.logDate ≤ e))

/-- Modelled from the spec: `consumptionStats(userId, startDate, endDate)` of
§4.2 (`getUserConsumptionStats` of `lib/transactions.js`): `InvalidArgument`
when the range is reversed, otherwise the per-kind counts, the consumed and
wasted quantity sums, and the total count over the matching entries. -/
def getUserConsumptionStats (db : DB) (uid s e : Nat) :
    Except LedgerError ConsumptionStats :=
  if e < s then .error .InvalidArgument
  else
    .ok { total := (db.logs.filter (logInRange uid s e)).length
          consumed := ((db.logs.filter (logInRange uid s e)).filter
            (fun l => l.actionType == .CONSUMED)).length
          wasted := ((db.logs.filter (logInRange uid s e)).filter
            (fun l => l.actionType == .WASTED)).length
          purchased := ((db.logs.filter (logInRange uid s e)).filter
            (fun l => l.actionType == .PURCHASED)).length
          donated := ((db.logs.filter (logInRange uid s e)).filter
            (fun l => l.actionType == .DONATED)).length
          totalQuantityConsumed := (((db.logs.filter (logInRange uid s e)).filter
            (fun l => l.actionType == .CONSUMED)).map
            (fun l => l.quantity)).sum
          totalQuantityWasted := (((db.logs.filter (logInRange uid s e)).filter
            (fun l => l.actionType == .WASTED)).map
            (fun l => l.quantity)).sum }

/-! ### Concrete fixtures used by the witness theorems -/

/-- A concrete inventory document: two liters of milk owned by user 10. -/
def recMilk : InventoryRecord :=
  { id := 1, userId := 10, customName := "Milk", quantity := 2, unit := "liter" }

/-- A concrete datastore holding just `recMilk`. -/
def dbMilk : DB := { inventory := [recMilk], nextId := 5 }

/-- A concrete inventory document with an expiration timestamp. -/
def recBread : InventoryRecord :=
  { id := 2, userId := 10, customName := "Bread", quantity := 1,
    expirationDate := some 1500 }

/-- A concrete inventory document without an expiration timestamp. -/
def recNoExp : InventoryRecord :=
  { id := 3, userId := 10, customName := "Salt", quantity := 1 }

/-- A concrete inventory document owned by a different user. -/
def recOther : InventoryRecord :=
  { id := 4, userId := 11, customName := "Jam", quantity := 1,
    expirationDate := some 1200 }

/-- A concrete datastore for the expiring-items witness. -/
def dbExp : DB := { inventory := [recBread, recNoExp, recOther], nextId := 9 }

/-! ### Theorems: chat handler -/

theorem usersWellFormed_nil : UsersWellFormed [] := by
  intro p hp; cases hp

theorem usersWellFormed_ensure {m : UsersMap} (h : UsersWellFormed m) (k : String) :
    UsersWellFormed (ensureUser m k) := by
  unfold ensureUser
  split
  · exact h
  · intro p hp
    rcases List.mem_append.mp hp with h1 | h2
    · exact h p h1
    · rcases List.mem_singleton.mp h2 with rfl
      rfl

/-- The chat handler preserves the `users` invariant on every request. -/
theorem chatHandler_preserves_wellFormed (m : UsersMap) (req : ChatRequest)
    (h : UsersWellFormed m) : UsersWellFormed (chatHandler m req).2 := by
  unfold chatHandler
  repeat' split
  all_goals first
    | exact h
    | exact usersWellFormed_ensure h _

theorem lookupUser_mem {m : UsersMap} {k : String} {u : ChatUser}
    (h : lookupUser m k = some u) : (k, u) ∈ m := by
  induction m with
  | nil => simp [lookupUser] at h
  | cons p rest ih =>
    obtain ⟨k', u'⟩ := p
    simp only [lookupUser] at h
    by_cases hk : k' = k
    · subst hk
      simp at h
      subst h
      exact List.mem_cons_self _ _
    · rw [if_neg (by simpa using hk)] at h
      exact List.mem_cons_of_mem _ (ih h)

theorem lookupUser_append_single {m : UsersMap} {k k' : String} {u : ChatUser}
    (h : k' ≠ k) : lookupUser (m ++ [(k', u)]) k = lookupUser m k := by
  induction m with
  | nil => simp [lookupUser, h]
  | cons p rest ih =>
    obtain ⟨k0, u0⟩ := p
    simp only [List.cons_append, lookupUser]
    by_cases hk : (k0 == k) = true
    · rw [if_pos hk, if_pos hk]
    · rw [if_neg hk, if_neg hk]
      exact ih

theorem lookupUser_none_append {m : UsersMap} {k : String} {u : ChatUser}
    (h : lookupUser m k = none) : lookupUser (m ++ [(k, u)]) k = some u := by
  induction m with
  | nil => simp [lookupUser]
  | cons p rest ih =>
    obtain ⟨k0, u0⟩ := p
    simp only [lookupUser] at h
    simp only [List.cons_append, lookupUser]
    by_cases hk : (k0 == k) = true
    · rw [if_pos hk] at h
      cases h
    · rw [if_neg hk] at h
      rw [if_neg hk]
      exact ih h

/-- For a key not shadowed by `Object.prototype`, the insertion guard reduces
to plain own-key absence. -/
theorem ensureUser_not_proto {m : UsersMap} {k : String}
    (hk : k ∉ objectProtoProps) :
    ensureUser m k =
      if (lookupUser m k).isSome then m else m ++ [(k, ⟨k⟩)] := by
  unfold ensureUser jsGetProp
  cases h : lookupUser m k with
  | some u => simp [jsPropTruthy]
  | none => simp [jsPropTruthy, hk]

/-- After the guarded insertion, reading back a non-shadowed key of a
well-formed map yields the own document `{ id: k }`. -/
theorem jsGetProp_ensure_self {m : UsersMap} (hw : UsersWellFormed m)
    {k : String} (hk : k ∉ objectProtoProps) :
    jsGetProp (ensureUser m k) k = .own ⟨k⟩ := by
  rw [ensureUser_not_proto hk]
  split
  · rename_i hs
    obtain ⟨u, hu⟩ := Option.isSome_iff_exists.mp hs
    have := hw _ (lookupUser_mem hu)
    unfold jsGetProp
    rw [hu]
    cases u
    simp only at this
    simp [this]
  · rename_i hs
    have hnone : lookupUser m k = none := by
      cases h : lookupUser m k
      · rfl
      · exact absurd (by simp [h]) hs
    unfold jsGetProp
    rw [lookupUser_none_append hnone]

theorem lookupUser_ensure_other {m : UsersMap} {k k' : String} (h : k' ≠ k) :
    lookupUser (ensureUser m k') k = lookupUser m k := by
  unfold ensureUser
  split
  · rfl
  · exact lookupUser_append_single h

/-- C10, amended: a GET request whose path contains `/api/user/` but neither
`/inventory` nor `/analytics`, and whose extracted id is not an inherited
`Object.prototype` property name, gets a 200 response whose body is the own
user document `{id: <segment after /api/user/>}`; the module-level `users`
map gains an entry for that id exactly when it was absent, all other entries
are untouched, and the map only ever grows (the old map is a prefix of the
new one).  The exclusion of prototype names is forced by
`chatHandler_userGet_counterexample`: for a segment such as `constructor`
the guard `!users[userId]` sees the inherited truthy member, so the real
handler inserts nothing and responds with the inherited value.  The
well-formedness hypothesis is the reachability invariant of the module
state, established by `usersWellFormed_nil` and
`chatHandler_preserves_wellFormed`. -/
theorem chatHandler_userGet (users : UsersMap) (req : ChatRequest)
    (hw : UsersWellFormed users)
    (hm : req.method = "GET")
    (h1 : jsIncludes (jsPathname req.url) "/api/user/" = true)
    (h2 : jsIncludes (jsPathname req.url) "/inventory" = false)
    (h3 : jsIncludes (jsPathname req.url) "/analytics" = false)
    (hseg : userSeg (jsPathname req.url) ∉ objectProtoProps) :
    (chatHandler users req).1 =
      ⟨200, .userDoc (.own ⟨userSeg (jsPathname req.url)⟩)⟩ ∧
    (chatHandler users req).2 =
      (if (lookupUser users (userSeg (jsPathname req.url))).isSome then users
       else users ++
         [(userSeg (jsPathname req.url), ⟨userSeg (jsPathname req.url)⟩)]) ∧
    (∀ k, k ≠ userSeg (jsPathname req.url) →
      lookupUser (chatHandler users req).2 k = lookupUser users k) ∧
    users <+: (chatHandler users req).2 := by
  have e1 : (jsPathname req.url == "/") = false := by
    cases hp : jsPathname req.url == "/"
    · rfl
    · exfalso
      have hq : jsPathname req.url = "/" := by simpa using hp
      rw [hq] at h1
      exact absurd h1 (by decide)
  have e2 : (jsPathname req.url == "") = false := by
    cases hp : jsPathname req.url == ""
    · rfl
    · exfalso
      have hq : jsPathname req.url = "" := by simpa using hp
      rw [hq] at h1
      exact absurd h1 (by decide)
  have e3 : (jsPathname req.url == "/health") = false := by
    cases hp : jsPathname req.url == "/health"
    · rfl
    · exfalso
      have hq : jsPathname req.url = "/health" := by simpa using hp
      rw [hq] at h1
      exact absurd h1 (by decide)
  have key : chatHandler users req =
      (⟨200, .userDoc (jsGetProp
          (ensureUser users (userSeg (jsPathname req.url)))
          (userSeg (jsPathname req.url)))⟩,
       ensureUser users (userSeg (jsPathname req.url))) := by
    rw [chatHandler, hm]
    simp [e1, e2, e3, h1, h2, h3]
  refine ⟨?_, ?_, ?_, ?_⟩
  · rw [key]
    simp only [jsGetProp_ensure_self hw hseg]
  · rw [key, ensureUser_not_proto hseg]
  · intro k hk
    rw [key]
    exact lookupUser_ensure_other (Ne.symm hk)
  · rw [key]
    simp only []
    unfold ensureUser
    split
    · exact List.prefix_refl _
    · exact List.prefix_append _ _

/-- Counterexample to C10 as stated: for the reachable request
`GET /api/user/constructor` against the pristine module state, `constructor`
is not a key of the (empty) `users` map, yet the handler inserts nothing and
its body is the inherited `Object.prototype.constructor`, not the user
document `{id: "constructor"}` — the prototype chain makes the insertion
guard truthy. -/
theorem chatHandler_userGet_counterexample :
    lookupUser [] "constructor" = none ∧
    (chatHandler [] { method := "GET", url := "/api/user/constructor" }).1 =
      ⟨200, .userDoc (.inherited "constructor")⟩ ∧
    (chatHandler [] { method := "GET", url := "/api/user/constructor" }).1 ≠
      ⟨200, .userDoc (.own ⟨"constructor"⟩)⟩ ∧
    (chatHandler [] { method := "GET", url := "/api/user/constructor" }).2 =
      [] := by
  exact ⟨rfl, by decide, by decide, by decide⟩

/-- Witness for the amended C10 at a concrete request. -/
theorem chatHandler_userGet_witness :
    UsersWellFormed ([] : UsersMap) ∧
    "abc" ∉ objectProtoProps ∧
    (chatHandler [] { method := "GET", url := "/api/user/abc?x=1" }).1 =
      ⟨200, .userDoc (.own ⟨"abc"⟩)⟩ ∧
    (chatHandler [] { method := "GET", url := "/api/user/abc?x=1" }).2 =
      [("abc", ⟨"abc"⟩)] := by
  have hw : UsersWellFormed ([] : UsersMap) := by intro p hp; cases hp
  have hseg : userSeg (jsPathname "/api/user/abc?x=1") = "abc" := by decide
  have h := chatHandler_userGet [] { method := "GET", url := "/api/user/abc?x=1" }
    hw rfl (by decide) (by decide) (by decide) (by rw [hseg]; decide)
  rw [hseg] at h
  refine ⟨hw, by decide, h.1, ?_⟩
  rw [h.2.1]
  decide

/-! ### Theorems: Inventory Ledger -/

theorem find?_replaceById {l : List InventoryRecord} {invId : Nat}
    {r r' : InventoryRecord}
    (h : l.find? (fun x => x.id == invId) = some r) (hid : r'.id = invId) :
    (replaceById l invId r').find? (fun x => x.id == invId) = some r' := by
  induction l with
  | nil => simp at h
  | cons a as ih =>
    simp only [replaceById, List.map_cons] at *
    by_cases ha : (a.id == invId) = true
    · rw [if_pos ha]
      rw [List.find?_cons_of_pos]
      simp [hid]
    · rw [if_neg ha]
      rw [List.find?_cons_of_neg _ (by simpa using ha)] at h
      rw [List.find?_cons_of_neg _ (by simpa using ha)]
      exact ih h

/-- C2: a `consume` call whose preconditions hold (positive amount, record
exists, owned by the caller, enough quantity) succeeds; the record's quantity
afterwards is its quantity before minus the amount, exactly one new log entry
is appended, with kind `CONSUMED`, quantity `amount` and the record's name
snapshot, and the result carries the updated record and that log entry. -/
theorem consume_success_spec (db : DB) (invId uid : Nat) (amount : ℚ)
    (now : Nat) (r : InventoryRecord)
    (hfind : findRecord db invId = some r) (hown : r.userId = uid)
    (hpos : 0 < amount) (hle : amount ≤ r.quantity) :
    ∃ db' log,
      consumeItem db invId uid amount now =
        .ok (db', { r with quantity := r.quantity - amount }, log) ∧
      db'.logs = db.logs ++ [log] ∧
      log.actionType = .CONSUMED ∧ log.quantity = amount ∧
      log.foodName = r.customName ∧ log.userId = uid ∧
      log.reasonForWaste = none ∧
      db'.inventory =
        replaceById db.inventory invId { r with quantity := r.quantity - amount } ∧
      findRecord db' invId = some { r with quantity := r.quantity - amount } ∧
      db'.foodItems = db.foodItems := by
  have hfind' : db.inventory.find? (fun x => x.id == invId) = some r := hfind
  have hbeq := List.find?_some hfind'
  have hid : r.id = invId := by simpa using hbeq
  unfold consumeItem decrementAndLog
  rw [if_neg (not_le.mpr hpos), hfind]
  simp only []
  rw [if_neg (by simp [hown]), if_neg (not_lt.mpr hle)]
  refine ⟨_, _, rfl, rfl, rfl, rfl, rfl, rfl, rfl, rfl, ?_, rfl⟩
  exact find?_replaceById hfind' hid

/-- Witness for C2 at a concrete datastore. -/
theorem consume_success_witness :
    findRecord dbMilk 1 = some recMilk ∧
    recMilk.userId = 10 ∧ (0 : ℚ) < 1 ∧ (1 : ℚ) ≤ recMilk.quantity ∧
    (∃ db' log,
      consumeItem dbMilk 1 10 1 77 =
        .ok (db', { recMilk with quantity := recMilk.quantity - 1 }, log) ∧
      db'.logs = dbMilk.logs ++ [log] ∧
      log.actionType = .CONSUMED ∧ log.quantity = 1 ∧
      log.foodName = recMilk.customName ∧ log.userId = 10 ∧
      log.reasonForWaste = none ∧
      db'.inventory =
        replaceById dbMilk.inventory 1
          { recMilk with quantity := recMilk.quantity - 1 } ∧
      findRecord db' 1 = some { recMilk with quantity := recMilk.quantity - 1 } ∧
      db'.foodItems = dbMilk.foodItems) := by
  refine ⟨rfl, rfl, by norm_num, ?_, ?_⟩
  · show (1 : ℚ) ≤ 2
    norm_num
  · exact consume_success_spec dbMilk 1 10 1 77 recMilk rfl rfl (by norm_num)
      (by show (1 : ℚ) ≤ 2; norm_num)

/-- C3: a `consume` or `waste` call that resolves and owns its record but asks
for more than is available fails with `InsufficientQuantity` carrying the
requested and the available quantity; the observed state is unchanged, so no
log entry is created and the quantity stays as it was. -/
theorem insufficientQuantity_spec (db : DB) (invId uid : Nat) (amount : ℚ)
    (now : Nat) (r : InventoryRecord) (s : String)
    (hfind : findRecord db invId = some r) (hown : r.userId = uid)
    (hq0 : 0 ≤ r.quantity) (hex : r.quantity < amount) (hs : s ≠ "") :
    consumeItem db invId uid amount now =
      .error (.InsufficientQuantity amount r.quantity) ∧
    wasteItem db invId uid amount (some s) now =
      .error (.InsufficientQuantity amount r.quantity) ∧
    nextState db (consumeItem db invId uid amount now) = db ∧
    nextState db (wasteItem db invId uid amount (some s) now) = db := by
  have hpos : ¬ amount ≤ 0 := by
    intro h
    exact absurd (lt_of_lt_of_le hex h) (not_lt.mpr hq0)
  have hcore : ∀ (k : ActionType) (rs : Option String),
      decrementAndLog db invId uid amount k rs now =
        .error (.InsufficientQuantity amount r.quantity) := by
    intro k rs
    unfold decrementAndLog
    rw [if_neg hpos, hfind]
    simp only []
    rw [if_neg (by simp [hown]), if_pos hex]
  have hc : consumeItem db invId uid amount now =
      .error (.InsufficientQuantity amount r.quantity) := hcore _ _
  have hw : wasteItem db invId uid amount (some s) now =
      .error (.InsufficientQuantity amount r.quantity) := by
    have hwdef : wasteItem db invId uid amount (some s) now =
        if s = "" then .error .InvalidArgument
        else decrementAndLog db invId uid amount .WASTED (some s) now := rfl
    rw [hwdef, if_neg hs]
    exact hcore _ _
  exact ⟨hc, hw, by rw [hc]; rfl, by rw [hw]; rfl⟩

/-- Witness for C3 at a concrete datastore (consume 5 from 2 liters). -/
theorem insufficientQuantity_witness :
    findRecord dbMilk 1 = some recMilk ∧ recMilk.userId = 10 ∧
    (0 : ℚ) ≤ recMilk.quantity ∧ recMilk.quantity < 5 ∧ "Expired" ≠ "" ∧
    consumeItem dbMilk 1 10 5 77 =
      .error (.InsufficientQuantity 5 recMilk.quantity) ∧
    wasteItem dbMilk 1 10 5 (some "Expired") 77 =
      .error (.InsufficientQuantity 5 recMilk.quantity) ∧
    nextState dbMilk (consumeItem dbMilk 1 10 5 77) = dbMilk ∧
    nextState dbMilk (wasteItem dbMilk 1 10 5 (some "Expired") 77) = dbMilk := by
  have h2 : (0 : ℚ) ≤ recMilk.quantity := by show (0 : ℚ) ≤ 2; norm_num
  have h3 : recMilk.quantity < 5 := by show (2 : ℚ) < 5; norm_num
  have h := insufficientQuantity_spec dbMilk 1 10 5 77 recMilk "Expired"
    rfl rfl h2 h3 (by decide)
  exact ⟨rfl, rfl, h2, h3, by decide, h.1, h.2.1, h.2.2.1, h.2.2.2⟩

/-- C8: with a positive amount (and, for waste, a non-empty reason), a
`consume` or `waste` call against an absent record fails with `NotFound`; a
call against a record owned by a different user fails with `Forbidden`, a
distinct error; in both cases the observed state is unchanged. -/
theorem notFound_forbidden_spec (db : DB) (invId uid : Nat) (amount : ℚ)
    (now : Nat) (s : String) (hpos : 0 < amount) (hs : s ≠ "") :
    (findRecord db invId = none →
      consumeItem db invId uid amount now = .error .NotFound ∧
      wasteItem db invId uid amount (some s) now = .error .NotFound ∧
      nextState db (consumeItem db invId uid amount now) = db ∧
      nextState db (wasteItem db invId uid amount (some s) now) = db) ∧
    (∀ r, findRecord db invId = some r → r.userId ≠ uid →
      consumeItem db invId uid amount now = .error .Forbidden ∧
      wasteItem db invId uid amount (some s) now = .error .Forbidden ∧
      nextState db (consumeItem db invId uid amount now) = db ∧
      nextState db (wasteItem db invId uid amount (some s) now) = db) ∧
    LedgerError.Forbidden ≠ LedgerError.NotFound := by
  refine ⟨?_, ?_, by decide⟩
  · intro hnone
    have hcore : ∀ (k : ActionType) (rs : Option String),
        decrementAndLog db invId uid amount k rs now = .error .NotFound := by
      intro k rs
      unfold decrementAndLog
      rw [if_neg (not_le.mpr hpos), hnone]
    have hc := hcore ActionType.CONSUMED none
    have hw : wasteItem db invId uid amount (some s) now = .error .NotFound := by
      have hwdef : wasteItem db invId uid amount (some s) now =
          if s = "" then .error .InvalidArgument
          else decrementAndLog db invId uid amount .WASTED (some s) now := rfl
      rw [hwdef, if_neg hs]
      exact hcore _ _
    exact ⟨hc, hw, by rw [show consumeItem db invId uid amount now =
      .error .NotFound from hc]; rfl, by rw [hw]; rfl⟩
  · intro r hfind hneq
    have hcore : ∀ (k : ActionType) (rs : Option String),
        decrementAndLog db invId uid amount k rs now = .error .Forbidden := by
      intro k rs
      unfold decrementAndLog
      rw [if_neg (not_le.mpr hpos), hfind]
      simp only []
      rw [if_pos hneq]
    have hc := hcore ActionType.CONSUMED none
    have hw : wasteItem db invId uid amount (some s) now = .error .Forbidden := by
      have hwdef : wasteItem db invId uid amount (some s) now =
          if s = "" then .error .InvalidArgument
          else decrementAndLog db invId uid amount .WASTED (some s) now := rfl
      rw [hwdef, if_neg hs]
      exact hcore _ _
    exact ⟨hc, hw, by rw [show consumeItem db invId uid amount now =
      .error .Forbidden from hc]; rfl, by rw [hw]; rfl⟩

/-- Witness for C8: record 2 does not exist in `dbMilk`; record 1 exists but
belongs to user 10, not user 11. -/
theorem notFound_forbidden_witness :
    (0 : ℚ) < 1 ∧ "spoiled" ≠ "" ∧
    findRecord dbMilk 2 = none ∧
    consumeItem dbMilk 2 10 1 77 = .error .NotFound ∧
    findRecord dbMilk 1 = some recMilk ∧ recMilk.userId ≠ 11 ∧
    consumeItem dbMilk 1 11 1 77 = .error .Forbidden ∧
    wasteItem dbMilk 1 11 1 (some "spoiled") 77 = .error .Forbidden := by
  have h2 := notFound_forbidden_spec dbMilk 2 10 1 77 "spoiled"
    (by norm_num) (by decide)
  have h1 := notFound_forbidden_spec dbMilk 1 11 1 77 "spoiled"
    (by norm_num) (by decide)
  refine ⟨by norm_num, by decide, rfl, (h2.1 rfl).1, rfl, by decide, ?_, ?_⟩
  · exact (h1.2.1 recMilk rfl (by decide)).1
  · exact (h1.2.1 recMilk rfl (by decide)).2.1

/-- Case analysis of the shared decrement core: for fixed datastore and
arguments, either every kind/reason instance fails with one same error, or
every instance succeeds with the same record update and a log entry differing
only in its kind and reason fields. -/
theorem decrementAndLog_shape (db : DB) (invId uid : Nat) (amount : ℚ)
    (now : Nat) :
    (∃ e, ∀ (k : ActionType) (rs : Option String),
      decrementAndLog db invId uid amount k rs now = .error e) ∨
    (∃ r, findRecord db invId = some r ∧ ¬ amount ≤ 0 ∧ r.userId = uid ∧
      ¬ r.quantity < amount ∧
      ∀ (k : ActionType) (rs : Option String),
        decrementAndLog db invId uid amount k rs now =
          .ok ({ db with
                  inventory := replaceById db.inventory invId
                    { r with quantity := r.quantity - amount }
                  logs := db.logs ++
                    [{ id := db.nextId, userId := uid, foodName := r.customName,
                       actionType := k, quantity := amount,
                       reasonForWaste := rs, logDate := now }]
                  nextId := db.nextId + 1 },
                { r with quantity := r.quantity - amount },
                { id := db.nextId, userId := uid, foodName := r.customName,
                  actionType := k, quantity := amount, reasonForWaste := rs,
                  logDate := now })) := by
  by_cases h0 : amount ≤ 0
  · exact Or.inl ⟨.InvalidArgument, fun k rs => by
      unfold decrementAndLog; rw [if_pos h0]⟩
  · cases hf : findRecord db invId with
    | none =>
      exact Or.inl ⟨.NotFound, fun k rs => by
        unfold decrementAndLog; rw [if_neg h0, hf]⟩
    | some r =>
      by_cases hu : r.userId ≠ uid
      · exact Or.inl ⟨.Forbidden, fun k rs => by
          unfold decrementAndLog; rw [if_neg h0, hf]; simp only []
          rw [if_pos hu]⟩
      · by_cases hq : r.quantity < amount
        · exact Or.inl ⟨.InsufficientQuantity amount r.quantity, fun k rs => by
            unfold decrementAndLog; rw [if_neg h0, hf]; simp only []
            rw [if_neg hu, if_pos hq]⟩
        · exact Or.inr ⟨r, rfl, h0, not_ne_iff.mp hu, hq, fun k rs => by
            unfold decrementAndLog; rw [if_neg h0, hf]; simp only []
            rw [if_neg hu, if_neg hq]⟩

/-- C7: a `waste` call with an omitted or empty reason fails with
`InvalidArgument` and changes nothing; with a non-empty reason it has the
identical contract to `consume`: it fails exactly when and how consume fails,
and when consume succeeds it succeeds with the same record update and the
same log entry except for kind `WASTED` and the recorded reason. -/
theorem waste_contract_spec (db : DB) (invId uid : Nat) (amount : ℚ)
    (now : Nat) (s : String) (hs : s ≠ "") :
    wasteItem db invId uid amount none now = .error .InvalidArgument ∧
    wasteItem db invId uid amount (some "") now = .error .InvalidArgument ∧
    nextState db (wasteItem db invId uid amount none now) = db ∧
    nextState db (wasteItem db invId uid amount (some "") now) = db ∧
    (∀ e, wasteItem db invId uid amount (some s) now = .error e ↔
      consumeItem db invId uid amount now = .error e) ∧
    (∀ db₁ rec₁ log₁,
      consumeItem db invId uid amount now = .ok (db₁, rec₁, log₁) →
      wasteItem db invId uid amount (some s) now =
        .ok ({ db₁ with logs := db.logs ++
                [{ log₁ with actionType := .WASTED, reasonForWaste := some s }] },
              rec₁,
              { log₁ with actionType := .WASTED, reasonForWaste := some s })) := by
  have hwdef : wasteItem db invId uid amount (some s) now =
      decrementAndLog db invId uid amount .WASTED (some s) now := by
    have : wasteItem db invId uid amount (some s) now =
        if s = "" then .error .InvalidArgument
        else decrementAndLog db invId uid amount .WASTED (some s) now := rfl
    rw [this, if_neg hs]
  refine ⟨rfl, rfl, rfl, rfl, ?_, ?_⟩
  · intro e
    rcases decrementAndLog_shape db invId uid amount now with ⟨e', he⟩ | ⟨r, _, _, _, _, hok⟩
    · rw [hwdef, he .WASTED (some s)]
      unfold consumeItem
      rw [he .CONSUMED none]
    · rw [hwdef, hok .WASTED (some s)]
      unfold consumeItem
      rw [hok .CONSUMED none]
      simp
  · intro db₁ rec₁ log₁ hcon
    rcases decrementAndLog_shape db invId uid amount now with ⟨e', he⟩ | ⟨r, _, _, _, _, hok⟩
    · unfold consumeItem at hcon
      rw [he .CONSUMED none] at hcon
      cases hcon
    · unfold consumeItem at hcon
      rw [hok .CONSUMED none] at hcon
      simp only [Except.ok.injEq, Prod.mk.injEq] at hcon
      obtain ⟨h1, h2, h3⟩ := hcon
      subst h1
      subst h2
      subst h3
      rw [hwdef, hok .WASTED (some s)]

/-- Witness for C7 at a concrete datastore. -/
theorem waste_contract_witness :
    ("Expired" ≠ "") ∧
    wasteItem dbMilk 1 10 1 none 77 = .error .InvalidArgument ∧
    wasteItem dbMilk 1 10 1 (some "") 77 = .error .InvalidArgument ∧
    nextState dbMilk (wasteItem dbMilk 1 10 1 none 77) = dbMilk := by
  have h := waste_contract_spec dbMilk 1 10 1 77 "Expired" (by decide)
  exact ⟨by decide, h.1, h.2.1, h.2.2.1⟩

/-- A successful `purchase` in explicit form: one appended record, one
appended `PURCHASED` log entry, fresh ids, catalog untouched. -/
theorem purchaseItem_ok (db : DB) (uid : Nat) (d : ItemData) (now : Nat)
    (hq : 0 < d.quantity) (hf : ValidFoodRef db d.foodItemId) :
    ∃ db₁ r₁ g₁, purchaseItem db uid d now = .ok (db₁, r₁, g₁) ∧
      db₁.inventory = db.inventory ++ [r₁] ∧
      db₁.logs = db.logs ++ [g₁] ∧
      db₁.foodItems = db.foodItems ∧
      db₁.nextId = db.nextId + 2 ∧
      r₁.id = db.nextId ∧ r₁.userId = uid ∧ r₁.quantity = d.quantity ∧
      r₁.customName = d.customName ∧ r₁.unit = d.unit ∧
      r₁.foodItemId = d.foodItemId ∧ r₁.expirationDate = d.expirationDate ∧
      g₁.actionType = .PURCHASED ∧ g₁.quantity = d.quantity ∧
      g₁.userId = uid ∧ g₁.foodName = d.customName ∧ g₁.logDate = now := by
  have hcond : (match d.foodItemId with
      | none => false
      | some fid => (findFoodItem db fid).isNone) = false := by
    cases hd : d.foodItemId with
    | none => rfl
    | some fid =>
      simp only [ValidFoodRef, hd] at hf
      obtain ⟨f, hff⟩ := Option.isSome_iff_exists.mp hf
      simp [hff]
  unfold purchaseItem
  rw [if_neg (not_le.mpr hq), hcond]
  simp only [Bool.false_eq_true, if_false]
  exact ⟨_, _, _, rfl, rfl, rfl, rfl, rfl, rfl, rfl, rfl, rfl, rfl, rfl, rfl,
    rfl, rfl, rfl, rfl, rfl⟩

theorem validFoodRef_congr {db db' : DB} (h : db'.foodItems = db.foodItems)
    {o : Option Nat} (hf : ValidFoodRef db o) : ValidFoodRef db' o := by
  cases o with
  | none => trivial
  | some fid => simpa [ValidFoodRef, findFoodItem, h] using hf

/-- C6: a `purchase` with positive quantity (and a resolvable catalog
reference, when supplied) creates exactly one new record owned by the caller
with the supplied quantity together with exactly one `PURCHASED` log entry of
the same quantity; a second purchase — in particular one with the same
display name — appends another distinct record (a new lot) instead of
merging into the first. -/
theorem purchase_spec (db : DB) (uid : Nat) (d d₂ : ItemData) (now now₂ : Nat)
    (hq : 0 < d.quantity) (hf : ValidFoodRef db d.foodItemId)
    (hq₂ : 0 < d₂.quantity) (hf₂ : ValidFoodRef db d₂.foodItemId) :
    ∃ db₁ r₁ g₁, purchaseItem db uid d now = .ok (db₁, r₁, g₁) ∧
      db₁.inventory = db.inventory ++ [r₁] ∧
      db₁.logs = db.logs ++ [g₁] ∧
      r₁.userId = uid ∧ r₁.quantity = d.quantity ∧
      r₁.customName = d.customName ∧
      g₁.actionType = .PURCHASED ∧ g₁.quantity = d.quantity ∧
      g₁.userId = uid ∧ g₁.foodName = d.customName ∧
      ∃ db₂ r₂ g₂, purchaseItem db₁ uid d₂ now₂ = .ok (db₂, r₂, g₂) ∧
        db₂.inventory = db.inventory ++ [r₁] ++ [r₂] ∧
        db₂.logs = db.logs ++ [g₁] ++ [g₂] ∧
        r₂.customName = d₂.customName ∧
        r₂.id ≠ r₁.id := by
  obtain ⟨db₁, r₁, g₁, h1, hinv1, hlog1, hfood1, hnext1, hrid1, hru1, hrq1,
    hrn1, _, _, _, hga1, hgq1, hgu1, hgn1, _⟩ := purchaseItem_ok db uid d now hq hf
  obtain ⟨db₂, r₂, g₂, h2, hinv2, hlog2, _, _, hrid2, _, _, hrn2, _, _, _,
    _, _, _, _, _⟩ :=
    purchaseItem_ok db₁ uid d₂ now₂ hq₂ (validFoodRef_congr hfood1 hf₂)
  refine ⟨db₁, r₁, g₁, h1, hinv1, hlog1, hru1, hrq1, hrn1, hga1, hgq1, hgu1,
    hgn1, db₂, r₂, g₂, h2, ?_, ?_, hrn2, ?_⟩
  · rw [hinv2, hinv1]
  · rw [hlog2, hlog1]
  · rw [hrid2, hrid1, hnext1]
    omega

/-- Witness for C6: two purchases of "Rice" against the concrete datastore. -/
theorem purchase_witness :
    (0 : ℚ) < 3 ∧
    ValidFoodRef dbMilk none ∧
    (∃ db₁ r₁ g₁,
      purchaseItem dbMilk 10 { customName := "Rice", quantity := 3 } 77 =
        .ok (db₁, r₁, g₁) ∧
      db₁.inventory = dbMilk.inventory ++ [r₁] ∧
      db₁.logs = dbMilk.logs ++ [g₁] ∧
      r₁.userId = 10 ∧ r₁.quantity = 3 ∧ r₁.customName = "Rice" ∧
      g₁.actionType = .PURCHASED ∧ g₁.quantity = 3 ∧
      g₁.userId = 10 ∧ g₁.foodName = "Rice" ∧
      ∃ db₂ r₂ g₂,
        purchaseItem db₁ 10 { customName := "Rice", quantity := 3 } 78 =
          .ok (db₂, r₂, g₂) ∧
        db₂.inventory = dbMilk.inventory ++ [r₁] ++ [r₂] ∧
        db₂.logs = dbMilk.logs ++ [g₁] ++ [g₂] ∧
        r₂.customName = "Rice" ∧
        r₂.id ≠ r₁.id) := by
  refine ⟨by norm_num, trivial, ?_⟩
  exact purchase_spec dbMilk 10 { customName := "Rice", quantity := 3 }
    { customName := "Rice", quantity := 3 } 77 78
    (by norm_num) trivial (by norm_num) trivial

/-- A successful decrement keeps every quantity non-negative and keeps every
pre-existing record present (by id) — records are updated in place, never
removed, even when their quantity reaches 0. -/
theorem decrement_preserves (db : DB) (invId uid : Nat) (amount : ℚ)
    (kind : ActionType) (reason : Option String) (now : Nat)
    (hwf : QuantitiesNonneg db) (db' : DB) (rec : InventoryRecord)
    (log : ConsumptionLogEntry)
    (h : decrementAndLog db invId uid amount kind reason now = .ok (db', rec, log)) :
    QuantitiesNonneg db' ∧
    (∀ r0 ∈ db.inventory, ∃ r1 ∈ db'.inventory, r1.id = r0.id) := by
  rcases decrementAndLog_shape db invId uid amount now with ⟨e, he⟩ |
    ⟨r, hf, h0, hu, hq, hok⟩
  · rw [he kind reason] at h
    cases h
  · have hf' : db.inventory.find? (fun x => x.id == invId) = some r := hf
    have hid : r.id = invId := by simpa using List.find?_some hf'
    rw [hok kind reason] at h
    simp only [Except.ok.injEq, Prod.mk.injEq] at h
    obtain ⟨h1, -, -⟩ := h
    subst h1
    constructor
    · intro x hx
      simp only [replaceById, List.mem_map] at hx
      obtain ⟨y, hy, rfl⟩ := hx
      by_cases hyid : (y.id == invId) = true
      · rw [if_pos hyid]
        simp only [inventoryDocValid, decide_eq_true_eq]
        have := not_lt.mp hq
        linarith
      · rw [if_neg hyid]
        exact hwf y hy
    · intro r0 hr0
      refine ⟨_, List.mem_map_of_mem _ hr0, ?_⟩
      by_cases hyid : (r0.id == invId) = true
      · rw [if_pos hyid]
        have h0id : r0.id = invId := by simpa using hyid
        simp only []
        rw [hid, h0id]
      · rw [if_neg hyid]

/-- C9: every ledger operation preserves the `inventory` validator's
`quantity ≥ 0` rule of `sql/core_schema.mongodb.js`, and no operation deletes
a record: every record present before a successful call is still present (by
id) afterwards — in particular a record whose quantity reaches exactly 0
remains in the collection. -/
theorem quantity_invariant_spec (db : DB) (c : LedgerCall)
    (hwf : QuantitiesNonneg db) (db' : DB) (rec : InventoryRecord)
    (log : ConsumptionLogEntry)
    (h : applyCall db c = .ok (db', rec, log)) :
    QuantitiesNonneg db' ∧
    (∀ r0 ∈ db.inventory, ∃ r1 ∈ db'.inventory, r1.id = r0.id) := by
  cases c with
  | consume i u a n =>
    exact decrement_preserves db i u a .CONSUMED none n hwf db' rec log h
  | waste i u a rs n =>
    cases rs with
    | none => simp [applyCall, wasteItem] at h
    | some s =>
      by_cases hse : s = ""
      · subst hse
        simp [applyCall, wasteItem] at h
      · have hwd : applyCall db (.waste i u a (some s) n) =
            decrementAndLog db i u a .WASTED (some s) n := by
          show wasteItem db i u a (some s) n = _
          have : wasteItem db i u a (some s) n =
              if s = "" then .error .InvalidArgument
              else decrementAndLog db i u a .WASTED (some s) n := rfl
          rw [this, if_neg hse]
        rw [hwd] at h
        exact decrement_preserves db i u a .WASTED (some s) n hwf db' rec log h
  | purchase u d n =>
    have h' : purchaseItem db u d n = .ok (db', rec, log) := h
    unfold purchaseItem at h'
    split at h'
    · cases h'
    · split at h'
      · cases h'
      · rename_i hqneg _
        simp only [Except.ok.injEq, Prod.mk.injEq] at h'
        obtain ⟨h1, -, -⟩ := h'
        subst h1
        constructor
        · intro x hx
          rcases List.mem_append.mp hx with hold | hnew
          · exact hwf x hold
          · rcases List.mem_singleton.mp hnew with rfl
            simp only [inventoryDocValid, decide_eq_true_eq]
            exact le_of_lt (not_le.mp hqneg)
        · intro r0 hr0
          exact ⟨r0, List.mem_append_left _ hr0, rfl⟩

/-- Witness for C9: consuming the full two liters leaves quantity `2 - 2` and
the record still present. -/
theorem quantity_invariant_witness :
    QuantitiesNonneg dbMilk ∧
    (∃ db' rec log,
      applyCall dbMilk (.consume 1 10 2 77) = .ok (db', rec, log) ∧
      QuantitiesNonneg db' ∧
      (∀ r0 ∈ dbMilk.inventory, ∃ r1 ∈ db'.inventory, r1.id = r0.id)) := by
  have hwf : QuantitiesNonneg dbMilk := by
    intro r hr
    rcases List.mem_singleton.mp hr with rfl
    rfl
  have happ : applyCall dbMilk (.consume 1 10 2 77) =
      .ok ({ dbMilk with
              inventory := replaceById dbMilk.inventory 1
                { recMilk with quantity := recMilk.quantity - 2 }
              logs := dbMilk.logs ++
                [{ id := dbMilk.nextId, userId := 10, foodName := "Milk",
                   actionType := .CONSUMED, quantity := 2,
                   reasonForWaste := none, logDate := 77 }]
              nextId := dbMilk.nextId + 1 },
            { recMilk with quantity := recMilk.quantity - 2 },
            { id := dbMilk.nextId, userId := 10, foodName := "Milk",
              actionType := .CONSUMED, quantity := 2, reasonForWaste := none,
              logDate := 77 }) := by
    show consumeItem dbMilk 1 10 2 77 = _
    unfold consumeItem decrementAndLog
    rw [if_neg (by norm_num), show findRecord dbMilk 1 = some recMilk from rfl]
    simp only []
    rw [if_neg (by decide), if_neg (by show ¬ (2 : ℚ) < 2; norm_num)]
    exact rfl
  refine ⟨hwf, _, _, _, happ, ?_⟩
  exact quantity_invariant_spec dbMilk (.consume 1 10 2 77) hwf _ _ _ happ

/-- A successful decrement pairs its two writes: the new state's log is the
old log plus exactly the returned entry, and the inventory write is the
in-place update of a pre-existing record whose quantity dropped by exactly
the logged quantity. -/
theorem decrement_pairing (db : DB) (invId uid : Nat) (amount : ℚ)
    (kind : ActionType) (reason : Option String) (now : Nat) (db' : DB)
    (rec : InventoryRecord) (log : ConsumptionLogEntry)
    (h : decrementAndLog db invId uid amount kind reason now = .ok (db', rec, log)) :
    db'.logs = db.logs ++ [log] ∧
    ∃ r0 ∈ db.inventory, r0.id = rec.id ∧
      db'.inventory = replaceById db.inventory rec.id rec ∧
      rec.quantity = r0.quantity - log.quantity := by
  rcases decrementAndLog_shape db invId uid amount now with ⟨e, he⟩ |
    ⟨r, hf, h0, hu, hq, hok⟩
  · rw [he kind reason] at h
    cases h
  · have hf' : db.inventory.find? (fun x => x.id == invId) = some r := hf
    have hid : r.id = invId := by simpa using List.find?_some hf'
    have hmem : r ∈ db.inventory := List.mem_of_find?_eq_some hf'
    rw [hok kind reason] at h
    simp only [Except.ok.injEq, Prod.mk.injEq] at h
    obtain ⟨h1, h2, h3⟩ := h
    subst h1
    subst h2
    subst h3
    refine ⟨rfl, r, hmem, rfl, ?_, rfl⟩
    show replaceById db.inventory invId _ = replaceById db.inventory r.id _
    rw [hid]

/-- C1: under the transaction runner, a run exceeding the fixed timeout bound
fails with `Timeout`; every failing run leaves the observed state exactly the
pre-state (no partial effect, the first write is rolled back with the
second); and every committing run performs the two writes together — the log
grows by exactly the returned entry and the inventory change is the matching
single-record mutation (consume/waste) or single-record creation (purchase),
so a changed quantity and its log entry always appear together. -/
theorem atomicity_spec (db : DB) (c : LedgerCall) (elapsedMs : Nat)
    (swf : Bool) :
    (txTimeoutMs < elapsedMs → runTx db c elapsedMs swf = .error .Timeout) ∧
    (∀ e, runTx db c elapsedMs swf = .error e →
      nextState db (runTx db c elapsedMs swf) = db) ∧
    (∀ db' rec log, runTx db c elapsedMs swf = .ok (db', rec, log) →
      nextState db (runTx db c elapsedMs swf) = db' ∧
      db'.logs = db.logs ++ [log] ∧
      ((∃ r0 ∈ db.inventory, r0.id = rec.id ∧
          db'.inventory = replaceById db.inventory rec.id rec ∧
          rec.quantity = r0.quantity - log.quantity) ∨
        (db'.inventory = db.inventory ++ [rec] ∧ rec.quantity = log.quantity))) := by
  refine ⟨?_, ?_, ?_⟩
  · intro h
    unfold runTx
    rw [if_pos h]
  · intro e he
    rw [he]
    rfl
  · intro db' rec log hok
    refine ⟨by rw [hok]; rfl, ?_⟩
    have happ : applyCall db c = .ok (db', rec, log) := by
      unfold runTx at hok
      split at hok
      · cases hok
      · split at hok
        · cases hok
        · exact hok
    cases c with
    | consume i u a n =>
      have h' : decrementAndLog db i u a .CONSUMED none n =
          .ok (db', rec, log) := happ
      obtain ⟨hl, hrest⟩ := decrement_pairing db i u a .CONSUMED none n db' rec log h'
      exact ⟨hl, Or.inl hrest⟩
    | waste i u a rs n =>
      cases rs with
      | none => simp [applyCall, wasteItem] at happ
      | some s =>
        by_cases hse : s = ""
        · subst hse
          simp [applyCall, wasteItem] at happ
        · have h' : decrementAndLog db i u a .WASTED (some s) n =
              .ok (db', rec, log) := by
            have hwd : applyCall db (.waste i u a (some s) n) =
                if s = "" then .error .InvalidArgument
                else decrementAndLog db i u a .WASTED (some s) n := rfl
            rw [hwd, if_neg hse] at happ
            exact happ
          obtain ⟨hl, hrest⟩ :=
            decrement_pairing db i u a .WASTED (some s) n db' rec log h'
          exact ⟨hl, Or.inl hrest⟩
    | purchase u d n =>
      have h' : purchaseItem db u d n = .ok (db', rec, log) := happ
      unfold purchaseItem at h'
      split at h'
      · cases h'
      · split at h'
        · cases h'
        · simp only [Except.ok.injEq, Prod.mk.injEq] at h'
          obtain ⟨h1, h2, h3⟩ := h'
          subst h1
          subst h2
          subst h3
          exact ⟨rfl, Or.inr ⟨rfl, rfl⟩⟩

/-- Witness for C1: a run over the timeout bound aborts with `Timeout` and
leaves the state untouched; a committing consume pairs its writes. -/
theorem atomicity_witness :
    (txTimeoutMs < 6000) ∧
    runTx dbMilk (.consume 1 10 1 77) 6000 false = .error .Timeout ∧
    nextState dbMilk (runTx dbMilk (.consume 1 10 1 77) 6000 false) = dbMilk ∧
    nextState dbMilk (runTx dbMilk (.consume 1 10 1 77) 6000 true) = dbMilk := by
  have h := atomicity_spec dbMilk (.consume 1 10 1 77) 6000 false
  have h2 := atomicity_spec dbMilk (.consume 1 10 1 77) 6000 true
  have hto : txTimeoutMs < 6000 := by decide
  have he := h.1 hto
  exact ⟨hto, he, h.2.1 .Timeout he, h2.2.1 .Timeout (h2.1 hto)⟩

/-! ### Theorems: Query Service -/

/-- The four action kinds partition any list of log entries. -/
theorem length_partition_by_kind (ls : List ConsumptionLogEntry) :
    ls.length =
      ((ls.filter (fun l => l.actionType == ActionType.PURCHASED)).length +
        (ls.filter (fun l => l.actionType == ActionType.CONSUMED)).length +
        (ls.filter (fun l => l.actionType == ActionType.WASTED)).length +
        (ls.filter (fun l => l.actionType == ActionType.DONATED)).length) := by
  induction ls with
  | nil => rfl
  | cons a as ih =>
    cases ha : a.actionType <;>
      simp [List.filter_cons, ha, ih] <;> omega

/-- C5: for a well-ordered inclusive range, `consumptionStats` returns a
report (never an error) whose per-kind counts, consumed/wasted quantity sums
and total count are exactly those of the user's in-range log entries; the
four per-kind counts sum to the total; and with no matching entries every
field is present and equal to zero. -/
theorem consumptionStats_spec (db : DB) (uid s e : Nat) (hse : s ≤ e) :
    ∃ st, getUserConsumptionStats db uid s e = .ok st ∧
      st.purchased = ((db.logs.filter (logInRange uid s e)).filter
        (fun l => l.actionType == ActionType.PURCHASED)).length ∧
      st.consumed = ((db.logs.filter (logInRange uid s e)).filter
        (fun l => l.actionType == ActionType.CONSUMED)).length ∧
      st.wasted = ((db.logs.filter (logInRange uid s e)).filter
        (fun l => l.actionType == ActionType.WASTED)).length ∧
      st.donated = ((db.logs.filter (logInRange uid s e)).filter
        (fun l => l.actionType == ActionType.DONATED)).length ∧
      st.totalQuantityConsumed = (((db.logs.filter (logInRange uid s e)).filter
        (fun l => l.actionType == ActionType.CONSUMED)).map
        (fun l => l.quantity)).sum ∧
      st.totalQuantityWasted = (((db.logs.filter (logInRange uid s e)).filter
        (fun l => l.actionType == ActionType.WASTED)).map
        (fun l => l.quantity)).sum ∧
      st.total = (db.logs.filter (logInRange uid s e)).length ∧
      st.total = st.purchased + st.consumed + st.wasted + st.donated ∧
      ((∀ l ∈ db.logs, logInRange uid s e l = false) →
        st = { total := 0, consumed := 0, wasted := 0, purchased := 0,
               donated := 0, totalQuantityConsumed := 0,
               totalQuantityWasted := 0 }) := by
  unfold getUserConsumptionStats
  rw [if_neg (not_lt.mpr hse)]
  refine ⟨_, rfl, rfl, rfl, rfl, rfl, rfl, rfl, rfl, ?_, ?_⟩
  · exact length_partition_by_kind _
  · intro hnone
    have hnil : db.logs.filter (logInRange uid s e) = [] := by
      rw [List.filter_eq_nil_iff]
      intro l hl
      simp [hnone l hl]
    rw [hnil]
    rfl

/-- Witness for C5: an empty-match range over the concrete datastore returns
the all-zero report. -/
theorem consumptionStats_witness :
    (0 : Nat) ≤ 100 ∧
    getUserConsumptionStats dbMilk 10 0 100 =
      .ok { total := 0, consumed := 0, wasted := 0, purchased := 0,
            donated := 0, totalQuantityConsumed := 0,
            totalQuantityWasted := 0 } := by
  obtain ⟨st, hst, -, -, -, -, -, -, -, -, hz⟩ :=
    consumptionStats_spec dbMilk 10 0 100 (by norm_num)
  refine ⟨by norm_num, ?_⟩
  rw [hst, hz]
  intro l hl
  cases hl

/-- C4: `expiringSoon` returns exactly the enrichments of the user's own
records whose expiration timestamp lies in `[now, now + withinDays]`, both
bounds inclusive; the output is ordered by ascending expiration timestamp
with ties broken by record identity; and a record with no expiration
timestamp is never returned, for any `withinDays`. -/
theorem expiringSoon_spec (db : DB) (uid withinDays now : Nat) :
    (∀ x, x ∈ getExpiringItems db uid withinDays now ↔
      ∃ r ∈ db.inventory, r.userId = uid ∧
        (∃ ts, r.expirationDate = some ts ∧ now ≤ ts ∧
          ts ≤ now + withinDays * msPerDay) ∧
        x = enrich db r) ∧
    List.Pairwise expiryOrder (getExpiringItems db uid withinDays now) ∧
    (∀ x ∈ getExpiringItems db uid withinDays now,
      ∃ r ∈ db.inventory, r.expirationDate ≠ none ∧ x = enrich db r) := by
  have hmemiff : ∀ x, x ∈ getExpiringItems db uid withinDays now ↔
      ∃ r ∈ db.inventory, r.userId = uid ∧
        (∃ ts, r.expirationDate = some ts ∧ now ≤ ts ∧
          ts ≤ now + withinDays * msPerDay) ∧
        x = enrich db r := by
    intro x
    rw [getExpiringItems, List.mem_insertionSort, List.mem_map]
    constructor
    · rintro ⟨r, hr, rfl⟩
      rw [List.mem_filter] at hr
      obtain ⟨hmem, hcond⟩ := hr
      simp only [Bool.and_eq_true, beq_iff_eq] at hcond
      obtain ⟨huid, hwin⟩ := hcond
      refine ⟨r, hmem, huid, ?_, rfl⟩
      unfold inExpiryWindow at hwin
      cases hexp : r.expirationDate with
      | none => rw [hexp] at hwin; cases hwin
      | some ts =>
        rw [hexp] at hwin
        simp only [Bool.and_eq_true, decide_eq_true_eq] at hwin
        exact ⟨ts, rfl, hwin.1, hwin.2⟩
    · rintro ⟨r, hmem, huid, ⟨ts, hexp, h1, h2⟩, rfl⟩
      refine ⟨r, ?_, rfl⟩
      rw [List.mem_filter]
      refine ⟨hmem, ?_⟩
      simp only [Bool.and_eq_true, beq_iff_eq]
      refine ⟨huid, ?_⟩
      unfold inExpiryWindow
      rw [hexp]
      simp [h1, h2]
  refine ⟨hmemiff, ?_, ?_⟩
  · exact List.sorted_insertionSort expiryOrder _
  · intro x hx
    obtain ⟨r, hmem, -, ⟨ts, hexp, -, -⟩, rfl⟩ := (hmemiff x).mp hx
    exact ⟨r, hmem, by rw [hexp]; exact Option.some_ne_none ts, rfl⟩

/-- Witness for C4: against the concrete datastore, the view contains exactly
the owned record with an in-window expiration; the no-expiration record and
the foreign record are excluded, and the membership characterization holds at
the returned element. -/
theorem expiringSoon_witness :
    getExpiringItems dbExp 10 7 1000 = [enrich dbExp recBread] ∧
    (enrich dbExp recBread ∈ getExpiringItems dbExp 10 7 1000 ↔
      ∃ r ∈ dbExp.inventory, r.userId = 10 ∧
        (∃ ts, r.expirationDate = some ts ∧ 1000 ≤ ts ∧
          ts ≤ 1000 + 7 * msPerDay) ∧
        enrich dbExp recBread = enrich dbExp r) ∧
    List.Pairwise expiryOrder (getExpiringItems dbExp 10 7 1000) := by
  have h := expiringSoon_spec dbExp 10 7 1000
  exact ⟨by rfl, h.1 _, h.2.1⟩

end HackData
